import Mathlib

/-!
Verification development for the readme-generator repository.

The development shallowly embeds the two core components of the program —
the technology detector of `GitHubApiService` and the document synthesizer
`ReadmeGenerator` — together with the placeholder-resolution pass performed
by `handleAnalyze`.  Strings are Lean `String`s manipulated through their
underlying character lists.  Host-environment functions that the code calls
but does not define (`JSON.parse`, `atob`, `localeCompare`,
`toLocaleDateString`) are taken as parameters of the embedding.
-/

/-! ### Generic string machinery (JS string primitives used by the code) -/

/-- Blankness test backing the section filter `sections.filter(s => s.trim())`:
a JS string is kept exactly when it has a non-whitespace character. -/
def isBlank (s : String) : Bool :=
  s.data.all (fun c => c.isWhitespace)

/-- ECMAScript `GetSubstitution` for a string replacement value with a
group-free literal pattern: in the replacement, `$$` stands for a dollar
sign, `$&` for the matched text, a dollar followed by a backquote for the
original text before the match, and a dollar followed by an apostrophe for
the original text after the match; any other dollar (including `$1`…, since
the pattern has no capture groups) is literal. -/
def getSubstitution (matched before after : List Char) : List Char → List Char
  | [] => []
  | [c] => [c]
  | c :: d :: rest =>
    if c = '$' then
      if d = '$' then d :: getSubstitution matched before after rest
      else if d = '&' then matched ++ getSubstitution matched before after rest
      else if d = Char.ofNat 96 then before ++ getSubstitution matched before after rest
      else if d = Char.ofNat 39 then after ++ getSubstitution matched before after rest
      else c :: getSubstitution matched before after (d :: rest)
    else c :: getSubstitution matched before after (d :: rest)

/-- Fuelled worker of the global replacement; the fuel is an upper bound on
the number of characters still to be inspected, making the recursion
structural (and hence kernel-computable).  `pre` accumulates the original
characters already passed, i.e. the text preceding the current position in
the input string, which `GetSubstitution` needs for its dollar-backquote
escape. -/
def replaceAllGo (pat rep : List Char) : Nat → List Char → List Char → List Char
  | 0, _, s => s
  | _ + 1, _, [] => []
  | fuel + 1, pre, c :: s =>
    if pat.isPrefixOf (c :: s) ∧ pat ≠ [] then
      getSubstitution pat pre ((c :: s).drop pat.length) rep
        ++ replaceAllGo pat rep fuel (pre ++ pat) ((c :: s).drop pat.length)
    else
      c :: replaceAllGo pat rep fuel (pre ++ [c]) s

/-- Leftmost, non-overlapping global replacement on character lists.  Models
`String.prototype.replace` with a `g`-flagged literal pattern (the two
placeholder tokens contain no regex metacharacter) and a string replacement
value, whose dollar escapes are expanded by `getSubstitution` at each
match. -/
def replaceAllL (pat rep s : List Char) : List Char :=
  replaceAllGo pat rep s.length [] s

/-- Substring test on character lists (`String.prototype.includes`). -/
def containsL (pat : List Char) : List Char → Bool
  | [] => pat.isEmpty
  | c :: s => pat.isPrefixOf (c :: s) || containsL pat s

/-- Fuelled worker counting leftmost non-overlapping occurrences. -/
def countOccGo (pat : List Char) : Nat → List Char → Nat
  | 0, _ => 0
  | _ + 1, [] => 0
  | fuel + 1, c :: s =>
    if pat.isPrefixOf (c :: s) ∧ pat ≠ [] then
      1 + countOccGo pat fuel ((c :: s).drop pat.length)
    else
      countOccGo pat fuel s

/-- Number of leftmost non-overlapping occurrences of `pat`. -/
def countOccL (pat s : List Char) : Nat :=
  countOccGo pat s.length s

/-- String-level wrappers. -/
def strContains (s sub : String) : Bool := containsL sub.data s.data

def countOccS (pat s : String) : Nat := countOccL pat.data s.data

def jsReplaceAll (s pat rep : String) : String :=
  String.mk (replaceAllL pat.data rep.data s.data)

/-- Case mapping (`String.prototype.toLowerCase`, ASCII-faithful). -/
def toLowerS (s : String) : String := String.mk (s.data.map Char.toLower)

/-- Suffix test (`String.prototype.endsWith`). -/
def endsWithS (s suf : String) : Bool := suf.data.isSuffixOf s.data

/-- Array.prototype.join with a separator, on character lists. -/
def joinSep (sep : List Char) : List String → List Char
  | [] => []
  | [s] => s.data
  | s :: rest => s.data ++ sep ++ joinSep sep rest

def joinStr (sep : String) (l : List String) : String :=
  String.mk (joinSep sep.data l)

/-- Worker of the first-seen-kept deduplication, carrying the set of labels
already emitted (the state of the JS `Set` during iteration). -/
def dedupAcc (seen : List String) : List String → List String
  | [] => []
  | x :: xs =>
    if seen.contains x then dedupAcc seen xs
    else x :: dedupAcc (x :: seen) xs

/-- First-seen-kept deduplication, the semantics of `[...new Set(xs)]`. -/
def dedupFS (l : List String) : List String := dedupAcc [] l

/-- JS `x || default` for an optional string (both `null` and `""` are falsy). -/
def orDefault (o : Option String) (d : String) : String :=
  match o with
  | none => d
  | some s => if s = "" then d else s

/-! ### Data model (`src/types.ts`) -/

structure LicenseInfo where
  name : String
  spdx_id : String
deriving DecidableEq

structure Repository where
  name : String
  full_name : String
  description : Option String
  html_url : String
  clone_url : String
  language : Option String
  languages_url : String
  topics : List String
  license : Option LicenseInfo
  default_branch : String
  created_at : String
  updated_at : String
  stargazers_count : Nat
  forks_count : Nat
  size : Nat
deriving DecidableEq

inductive FileKind where
  | file
  | dir
deriving DecidableEq

structure RepoFile where
  name : String
  path : String
  type : FileKind
  size : Option Nat := none
deriving DecidableEq

structure TechnologyStack where
  languages : List (String × Nat)
  frameworks : List String
  tools : List String
  databases : List String
  deployment : List String
deriving DecidableEq

/-! ### GitHubApiService: resilient file-content fetch and technology detection -/

/-- Shape of a GitHub contents-API response as used by `getFileContent`:
only the optional `content` field is consulted. -/
structure ContentResponse where
  content : Option String
deriving DecidableEq

/-- Removal of newlines before base64 decoding (`content.replace(/\n/g, '')`). -/
def stripNewlines (s : String) : String :=
  String.mk (s.data.filter (fun c => c ≠ '\n'))

/-- Embeds `GitHubApiService.getFileContent`.  `response` is the outcome of
`fetchGitHub` (which throws on a non-ok response), `decode` models `atob`
(which throws on invalid base64).  Every failure path is caught locally and
yields the empty string. -/
def getFileContent (decode : String → Except String String)
    (response : Except String ContentResponse) : String :=
  match response with
  | .error _ => ""
  | .ok r =>
    match r.content with
    | none => ""
    | some c =>
      match decode (stripNewlines c) with
      | .error _ => ""
      | .ok s => s

/-- Parsed `package.json` dependency maps, keyed by dependency name.  The
detector merges regular and development dependencies into one lookup set. -/
structure PackageJson where
  dependencies : List String
  devDependencies : List String

def hasDep (p : PackageJson) (d : String) : Bool :=
  (p.dependencies ++ p.devDependencies).contains d

/-- Framework labels pushed by the `package.json` analysis, in program order. -/
def pkgFrameworks (p : PackageJson) : List String :=
  (if hasDep p "react" then
    ["React"]
    ++ (if hasDep p "next" || hasDep p "nextjs" then ["Next.js"] else [])
    ++ (if hasDep p "gatsby" then ["Gatsby"] else [])
    ++ (if hasDep p "react-native" then ["React Native"] else [])
  else [])
  ++ (if hasDep p "vue" then
        ["Vue.js"] ++ (if hasDep p "nuxt" then ["Nuxt.js"] else [])
      else [])
  ++ (if hasDep p "angular" || hasDep p "@angular/core" then ["Angular"] else [])
  ++ (if hasDep p "svelte" then ["Svelte"] else [])
  ++ (if hasDep p "express" then ["Express.js"] else [])
  ++ (if hasDep p "fastify" then ["Fastify"] else [])
  ++ (if hasDep p "@nestjs/core" then ["NestJS"] else [])
  ++ (if hasDep p "koa" then ["Koa.js"] else [])
  ++ (if hasDep p "hapi" then ["Hapi.js"] else [])

/-- Tool labels pushed by the `package.json` analysis, in program order. -/
def pkgTools (p : PackageJson) : List String :=
  (if hasDep p "webpack" then ["Webpack"] else [])
  ++ (if hasDep p "vite" then ["Vite"] else [])
  ++ (if hasDep p "parcel" then ["Parcel"] else [])
  ++ (if hasDep p "rollup" then ["Rollup"] else [])
  ++ (if hasDep p "esbuild" then ["ESBuild"] else [])
  ++ (if hasDep p "tailwindcss" then ["Tailwind CSS"] else [])
  ++ (if hasDep p "bootstrap" then ["Bootstrap"] else [])
  ++ (if hasDep p "@mui/material" then ["Material-UI"] else [])
  ++ (if hasDep p "antd" then ["Ant Design"] else [])
  ++ (if hasDep p "styled-components" then ["Styled Components"] else [])
  ++ (if hasDep p "jest" then ["Jest"] else [])
  ++ (if hasDep p "vitest" then ["Vitest"] else [])
  ++ (if hasDep p "mocha" then ["Mocha"] else [])
  ++ (if hasDep p "cypress" then ["Cypress"] else [])
  ++ (if hasDep p "playwright" then ["Playwright"] else [])
  ++ (if hasDep p "redux" then ["Redux"] else [])
  ++ (if hasDep p "zustand" then ["Zustand"] else [])
  ++ (if hasDep p "mobx" then ["MobX"] else [])
  ++ (if hasDep p "typescript" then ["TypeScript"] else [])

/-- Database labels pushed by the `package.json` analysis, in program order. -/
def pkgDatabases (p : PackageJson) : List String :=
  (if hasDep p "mongoose" then ["MongoDB"] else [])
  ++ (if hasDep p "prisma" then ["Prisma"] else [])
  ++ (if hasDep p "sequelize" then ["Sequelize"] else [])
  ++ (if hasDep p "typeorm" then ["TypeORM"] else [])
  ++ (if hasDep p "mysql2" || hasDep p "mysql" then ["MySQL"] else [])
  ++ (if hasDep p "pg" then ["PostgreSQL"] else [])
  ++ (if hasDep p "sqlite3" then ["SQLite"] else [])
  ++ (if hasDep p "redis" then ["Redis"] else [])

/-- Lower-cased file names of a listing (`files.map(f => f.name.toLowerCase())`). -/
def fileNames (files : List RepoFile) : List String :=
  files.map (fun f => toLowerS f.name)

/-- Framework labels derived from the raw requirements-file content by
case-sensitive substring containment, in program order. -/
def pythonFrameworks (deps : String) : List String :=
  (if strContains deps "django" then ["Django"] else [])
  ++ (if strContains deps "flask" then ["Flask"] else [])
  ++ (if strContains deps "fastapi" then ["FastAPI"] else [])
  ++ (if strContains deps "streamlit" then ["Streamlit"] else [])
  ++ (if strContains deps "tensorflow" then ["TensorFlow"] else [])
  ++ (if strContains deps "pytorch" then ["PyTorch"] else [])

/-- Tool labels derived from the raw requirements-file content. -/
def pythonTools (deps : String) : List String :=
  (if strContains deps "pandas" then ["Pandas"] else [])
  ++ (if strContains deps "numpy" then ["NumPy"] else [])

/-- Outcome of the guarded fetch-and-parse of `package.json`: `none` models
a skipped block (file absent), empty fetched content (falsy string guard) or
a caught `JSON.parse` exception; all three contribute no signal. -/
def pkgInfoOf (parse : String → Except String PackageJson) (fetch : String → String)
    (names : List String) : Option PackageJson :=
  if names.contains "package.json" then
    let c := fetch "package.json"
    if c = "" then none
    else
      match parse c with
      | .ok p => some p
      | .error _ => none
  else none

/-- The `frameworks` list accumulated by `detectTechnologies`, before dedup,
in push order. -/
def frameworksRaw (pkgInfo : Option PackageJson) (pyCond : Bool) (pythonDeps : String)
    (names : List String) (files : List RepoFile) : List String :=
  (match pkgInfo with | some p => pkgFrameworks p | none => [])
  ++ (if pyCond then pythonFrameworks pythonDeps else [])
  ++ (if names.contains "pom.xml" then ["Java"] else [])
  ++ (if names.contains "build.gradle" then ["Java"] else [])
  ++ (if files.any (fun f => endsWithS f.name ".csproj" || endsWithS f.name ".sln") then
        [".NET"] else [])
  ++ (if names.contains "go.mod" then ["Go"] else [])
  ++ (if names.contains "cargo.toml" then ["Rust"] else [])
  ++ (if names.contains "next.config.js" then ["Next.js"] else [])
  ++ (if names.contains "nuxt.config.js" then ["Nuxt.js"] else [])
  ++ (if names.contains "vue.config.js" then ["Vue.js"] else [])
  ++ (if names.contains "angular.json" then ["Angular"] else [])

/-- The `tools` list accumulated by `detectTechnologies`, before dedup. -/
def toolsRaw (pkgInfo : Option PackageJson) (pyCond : Bool) (pythonDeps : String)
    (names : List String) : List String :=
  (match pkgInfo with | some p => pkgTools p | none => [])
  ++ (if pyCond then ["pip"] else [])
  ++ (if pyCond then pythonTools pythonDeps else [])
  ++ (if names.contains "pom.xml" then ["Maven"] else [])
  ++ (if names.contains "build.gradle" then ["Gradle"] else [])
  ++ (if names.contains "cargo.toml" then ["Cargo"] else [])
  ++ (if names.contains "tsconfig.json" then ["TypeScript"] else [])
  ++ (if names.contains "tailwind.config.js" || names.contains "tailwind.config.ts" then
        ["Tailwind CSS"] else [])

/-- The `databases` list accumulated by `detectTechnologies`, before dedup. -/
def databasesRaw (pkgInfo : Option PackageJson) (names : List String)
    (files : List RepoFile) : List String :=
  (match pkgInfo with | some p => pkgDatabases p | none => [])
  ++ (if files.any (fun f => endsWithS f.name ".sql") then ["SQL"] else [])
  ++ (if names.contains "schema.prisma" then ["Prisma"] else [])

/-- The `deployment` list accumulated by `detectTechnologies`, before dedup. -/
def deploymentRaw (names : List String) (files : List RepoFile) : List String :=
  (if names.contains "dockerfile" || names.contains "docker-compose.yml" ||
      names.contains "docker-compose.yaml" then ["Docker"] else [])
  ++ (if files.any (fun f => strContains f.path ".github/workflows") then
        ["GitHub Actions"] else [])
  ++ (if names.contains ".travis.yml" then ["Travis CI"] else [])
  ++ (if names.contains "jenkinsfile" then ["Jenkins"] else [])
  ++ (if names.contains ".gitlab-ci.yml" then ["GitLab CI"] else [])

/-- Embeds `GitHubApiService.detectTechnologies`.  `parse` models
`JSON.parse` on the package manifest (throwing on malformed content, which
the code catches and logs); `fetch` models the already-resilient
`getFileContent`, so it is a plain `String`-valued function.  The four output
lists are deduplicated with `[...new Set(...)]` semantics before returning. -/
def detectTechnologies (parse : String → Except String PackageJson)
    (fetch : String → String) (files : List RepoFile)
    (languages : List (String × Nat)) : TechnologyStack :=
  let names := fileNames files
  let pkgInfo := pkgInfoOf parse fetch names
  let pyCond := names.contains "requirements.txt" || names.contains "pyproject.toml" ||
    names.contains "pipfile"
  let pythonDeps := if names.contains "requirements.txt" then fetch "requirements.txt" else ""
  { languages := languages
    frameworks := dedupFS (frameworksRaw pkgInfo pyCond pythonDeps names files)
    tools := dedupFS (toolsRaw pkgInfo pyCond pythonDeps names)
    databases := dedupFS (databasesRaw pkgInfo names files)
    deployment := dedupFS (deploymentRaw names files) }

/-- Disjunction of every manifest / marker condition tested by
`detectTechnologies`, used to state the no-recognized-marker scenario. -/
def detectionMarkers (files : List RepoFile) : Bool :=
  let names := fileNames files
  names.contains "package.json" || names.contains "requirements.txt" ||
  names.contains "pyproject.toml" || names.contains "pipfile" ||
  names.contains "pom.xml" || names.contains "build.gradle" ||
  files.any (fun f => endsWithS f.name ".csproj" || endsWithS f.name ".sln") ||
  names.contains "go.mod" || names.contains "cargo.toml" ||
  names.contains "dockerfile" || names.contains "docker-compose.yml" ||
  names.contains "docker-compose.yaml" ||
  files.any (fun f => strContains f.path ".github/workflows") ||
  names.contains ".travis.yml" || names.contains "jenkinsfile" ||
  names.contains ".gitlab-ci.yml" ||
  names.contains "tsconfig.json" || names.contains "tailwind.config.js" ||
  names.contains "tailwind.config.ts" ||
  names.contains "next.config.js" || names.contains "nuxt.config.js" ||
  names.contains "vue.config.js" || names.contains "angular.json" ||
  files.any (fun f => endsWithS f.name ".sql") || names.contains "schema.prisma"

/-! ### ReadmeGenerator: section builders -/

/-- JS word-character test used by the title regex `/\b\w/g`. -/
def isWordChar (c : Char) : Bool := c.isAlphanum || c = '_'

/-- Capitalisation of the first letter of every word, tracking whether the
previous character was a word character. -/
def capWordsGo (prevWord : Bool) : List Char → List Char
  | [] => []
  | c :: rest =>
    (if isWordChar c ∧ ¬ prevWord then c.toUpper else c) :: capWordsGo (isWordChar c) rest

/-- Embeds `generateHeader`: dashed/underscored name words become spaced and
capitalised; falsy description falls back to a generic sentence. -/
def generateHeader (r : Repository) : String :=
  let title := String.mk (capWordsGo false
    (r.name.data.map (fun c => if c = '-' ∨ c = '_' then ' ' else c)))
  "# " ++ title ++ "\n\n"
    ++ orDefault r.description "A modern application built with the latest technologies."

def starsBadge (r : Repository) : String :=
  "[![Stars](https://img.shields.io/github/stars/" ++ r.full_name
    ++ "?style=for-the-badge&logo=github)](" ++ r.html_url ++ "/stargazers)"

def forksBadge (r : Repository) : String :=
  "[![Forks](https://img.shields.io/github/forks/" ++ r.full_name
    ++ "?style=for-the-badge&logo=github)](" ++ r.html_url ++ "/network/members)"

def issuesBadge (r : Repository) : String :=
  "[![Issues](https://img.shields.io/github/issues/" ++ r.full_name
    ++ "?style=for-the-badge&logo=github)](" ++ r.html_url ++ "/issues)"

/-- Colour table of `getLanguageColor`. -/
def languageColors : List (String × String) :=
  [("JavaScript", "F7DF1E"), ("TypeScript", "3178C6"), ("Python", "3776AB"),
   ("Java", "ED8B00"), ("Go", "00ADD8"), ("Rust", "000000"), ("C++", "00599C"),
   ("C#", "239120"), ("PHP", "777BB4"), ("Ruby", "CC342D"), ("Swift", "FA7343"),
   ("Kotlin", "0095D5")]

def getLanguageColor (language : String) : String :=
  (languageColors.lookup language).getD "000000"

/-- Badge table of `getFrameworkBadge`; frameworks missing here are skipped. -/
def frameworkBadges : List (String × String) :=
  [("React", "[![React](https://img.shields.io/badge/React-20232A?style=for-the-badge&logo=react&logoColor=61DAFB)]()"),
   ("Next.js", "[![Next.js](https://img.shields.io/badge/Next.js-000000?style=for-the-badge&logo=next.js&logoColor=white)]()"),
   ("Vue.js", "[![Vue.js](https://img.shields.io/badge/Vue.js-35495E?style=for-the-badge&logo=vue.js&logoColor=4FC08D)]()"),
   ("Angular", "[![Angular](https://img.shields.io/badge/Angular-DD0031?style=for-the-badge&logo=angular&logoColor=white)]()"),
   ("Express.js", "[![Express.js](https://img.shields.io/badge/Express.js-404D59?style=for-the-badge)]()"),
   ("Django", "[![Django](https://img.shields.io/badge/Django-092E20?style=for-the-badge&logo=django&logoColor=white)]()"),
   ("Flask", "[![Flask](https://img.shields.io/badge/Flask-000000?style=for-the-badge&logo=flask&logoColor=white)]()"),
   ("FastAPI", "[![FastAPI](https://img.shields.io/badge/FastAPI-005571?style=for-the-badge&logo=fastapi)]()")]

def getFrameworkBadge (framework : String) : Option String :=
  frameworkBadges.lookup framework

/-- Optional language badge of `generateBadges` (truthy `repository.language`). -/
def langBadgeList (r : Repository) : List String :=
  match r.language with
  | some l =>
    if l = "" then []
    else
      ["[![" ++ l ++ "](https://img.shields.io/badge/" ++ l ++ "-" ++ getLanguageColor l
        ++ "?style=for-the-badge&logo=" ++ toLowerS l ++ ")]()"]
  | none => []

/-- Optional license badge of `generateBadges`. -/
def licenseBadgeList (r : Repository) : List String :=
  match r.license with
  | some lic =>
    ["[![License](https://img.shields.io/badge/License-" ++ lic.spdx_id
      ++ "-green?style=for-the-badge)](LICENSE)"]
  | none => []

/-- Embeds `generateBadges`: three repository-counter badges always, then an
optional language badge, badge-mapped framework badges, an optional license
badge, joined by newlines. -/
def generateBadges (r : Repository) (ts : TechnologyStack) : String :=
  joinStr "\n"
    ([starsBadge r, forksBadge r, issuesBadge r] ++ langBadgeList r
      ++ ts.frameworks.filterMap getFrameworkBadge ++ licenseBadgeList r)

/-- Embeds `detectProjectType`: first matching rule wins. -/
def detectProjectType (ts : TechnologyStack) (files : List RepoFile) : Option String :=
  let names := fileNames files
  if ts.frameworks.contains "React" then
    if ts.frameworks.contains "Next.js" then some "Next.js Web Application"
    else some "React Web Application"
  else if ts.frameworks.contains "Vue.js" then
    if ts.frameworks.contains "Nuxt.js" then some "Nuxt.js Web Application"
    else some "Vue.js Web Application"
  else if ts.frameworks.contains "Angular" then some "Angular Web Application"
  else if ts.frameworks.contains "Django" then some "Django Web Application"
  else if ts.frameworks.contains "Flask" then some "Flask Web Application"
  else if ts.frameworks.contains "Express.js" then some "Node.js Backend API"
  else if ts.frameworks.contains "FastAPI" then some "FastAPI Backend API"
  else if names.contains "package.json" then some "Node.js Application"
  else if names.contains "requirements.txt" then some "Python Application"
  else if names.contains "pom.xml" then some "Java Application"
  else if names.contains "cargo.toml" then some "Rust Application"
  else if names.contains "go.mod" then some "Go Application"
  else none

def sizesUnits : List String := ["Bytes", "KB", "MB", "GB"]

/-- Rendering of the two-decimal rounded value after `parseFloat` re-parsing:
trailing zeros of the fraction are dropped, as JS number-to-string does. -/
def fmt2 (hundredths : Nat) : String :=
  let ip := hundredths / 100
  let fr := hundredths % 100
  if fr = 0 then toString ip
  else if fr % 10 = 0 then toString ip ++ "." ++ toString (fr / 10)
  else if fr < 10 then toString ip ++ ".0" ++ toString fr
  else toString ip ++ "." ++ toString fr

/-- Embeds `formatBytes`.  The JS floating-point pipeline
(`Math.floor(Math.log(bytes)/Math.log(1024))`, `toFixed(2)`, `parseFloat`) is
modelled with exact integer arithmetic: unit index `Nat.log 1024 bytes`,
half-up rounding to hundredths, and trailing-zero dropping by `fmt2`.
An out-of-range unit index indexes past the array and renders `undefined`. -/
def formatBytes (bytes : Nat) : String :=
  if bytes = 0 then "0 Bytes"
  else
    let i := Nat.log 1024 bytes
    let d := 1024 ^ i
    let hundredths := (200 * bytes + d) / (2 * d)
    fmt2 hundredths ++ " " ++ sizesUnits.getD i "undefined"

/-- Embeds `generateDescription`.  `fmtDate` models the host-dependent
`new Date(...).toLocaleDateString()`. -/
def generateDescription (fmtDate : String → String) (r : Repository)
    (ts : TechnologyStack) (files : List RepoFile) : String :=
  "## 📋 About\n\n"
    ++ orDefault r.description "This project showcases modern development practices and technologies."
    ++ "\n\n"
    ++ (match detectProjectType ts files with
        | some t => "**Project Type:** " ++ t ++ "\n\n"
        | none => "")
    ++ "**Created:** " ++ fmtDate r.created_at ++ "\n"
    ++ "**Last Updated:** " ++ fmtDate r.updated_at ++ "\n"
    ++ "**Repository Size:** " ++ formatBytes (r.size * 1024)

def hasPackageJson (files : List RepoFile) : Bool :=
  files.any (fun f => toLowerS f.name = "package.json")

/-- Embeds `shouldIncludeApiDocs`. -/
def shouldIncludeApiDocs (ts : TechnologyStack) (files : List RepoFile) : Bool :=
  ts.frameworks.any (fun fw =>
    strContains fw "Express" || strContains fw "Fastify" || strContains fw "NestJS" ||
    strContains fw "Django" || strContains fw "Flask" || strContains fw "FastAPI")
  || files.any (fun f =>
      strContains (toLowerS f.name) "api" || strContains (toLowerS f.path) "routes" ||
      strContains (toLowerS f.path) "controllers" || strContains (toLowerS f.path) "endpoints")

/-- Embeds `generateTableOfContents`. -/
def generateTableOfContents (ts : TechnologyStack) (files : List RepoFile) : String :=
  let base := ["- [About](#-about)", "- [Features](#-features)",
    "- [Technology Stack](#-technology-stack)", "- [Installation](#-installation)",
    "- [Usage](#-usage)", "- [Project Structure](#-project-structure)"]
  let apiA := if shouldIncludeApiDocs ts files then ["- [API Documentation](#-api-documentation)"]
    else []
  let scrA := if hasPackageJson files then ["- [Available Scripts](#-available-scripts)"] else []
  "## 📚 Table of Contents\n\n"
    ++ joinStr "\n" (base ++ apiA ++ scrA
        ++ ["- [Contributing](#-contributing)", "- [License](#-license)", "- [Contact](#-contact)"])

/-- Fallback feature bullets pushed when no signal fired. -/
def defaultFeatures : List String :=
  ["✨ Modern and clean architecture", "⚡ Optimized for performance",
   "🔒 Secure coding practices", "📱 Responsive and user-friendly design"]

/-- Signal-derived feature bullets of `generateFeatures`, in push order. -/
def derivedFeatures (ts : TechnologyStack) (files : List RepoFile) : List String :=
  let names := fileNames files
  (if ts.frameworks.contains "React" then
    ["⚛️ Built with React for dynamic user interfaces"]
    ++ (if ts.tools.contains "TypeScript" then ["📘 Full TypeScript support for type safety"]
        else [])
  else [])
  ++ (if ts.frameworks.contains "Next.js" then
        ["🚀 Server-side rendering with Next.js", "📱 Optimized for performance and SEO"]
      else [])
  ++ (if ts.tools.contains "Tailwind CSS" then ["🎨 Responsive design with Tailwind CSS"] else [])
  ++ (if ts.frameworks.contains "Express.js" then ["🔧 RESTful API with Express.js"] else [])
  ++ (if ts.databases ≠ [] then
        ["🗄️ Database integration with " ++ joinStr ", " ts.databases] else [])
  ++ (if names.contains "dockerfile" then ["🐳 Docker containerization for easy deployment"]
      else [])
  ++ (if files.any (fun f => strContains f.path ".github/workflows") then
        ["🔄 Automated CI/CD with GitHub Actions"] else [])
  ++ (if names.any (fun n => strContains n "test" || strContains n "spec") then
        ["🧪 Comprehensive testing suite"] else [])
  ++ (if names.contains ".env.example" then ["⚙️ Environment-based configuration"] else [])

/-- Embeds `generateFeatures`: derived bullets, or the fixed fallback list
when none fired. -/
def generateFeatures (r : Repository) (ts : TechnologyStack) (files : List RepoFile) : String :=
  let features := derivedFeatures ts files
  let features := if features = [] then defaultFeatures else features
  "## ✨ Features\n\n" ++ joinStr "\n" features

/-- Language percentage in tenths (the `toFixed(1)` rendering of
`bytes/total*100`), modelled with exact half-up integer rounding. -/
def pctTenths (bytes total : Nat) : Nat := (2000 * bytes + total) / (2 * total)

def fmtPct (t : Nat) : String := toString (t / 10) ++ "." ++ toString (t % 10)

/-- Relation of the language sort `([,a],[,b]) => b - a`: byte counts
descending, stable. -/
def langGe (p q : String × Nat) : Prop := q.2 ≤ p.2

instance : DecidableRel langGe := fun p q => inferInstanceAs (Decidable (q.2 ≤ p.2))

/-- Embeds `generateTechStack`: one subsection per non-empty category. -/
def generateTechStack (ts : TechnologyStack) : String :=
  let langSec : List String :=
    if ts.languages ≠ [] then
      let total := (ts.languages.map (fun p => p.2)).sum
      let sorted := List.insertionSort langGe ts.languages
      ["### Programming Languages\n"
        ++ joinStr "\n" (sorted.map (fun p =>
            "- **" ++ p.1 ++ "** (" ++ fmtPct (pctTenths p.2 total) ++ "%)"))]
    else []
  let fwSec : List String :=
    if ts.frameworks ≠ [] then
      ["### Frameworks & Libraries\n"
        ++ joinStr "\n" (ts.frameworks.map (fun fw => "- **" ++ fw ++ "**"))]
    else []
  let toolSec : List String :=
    if ts.tools ≠ [] then
      ["### Development Tools\n"
        ++ joinStr "\n" (ts.tools.map (fun tool => "- **" ++ tool ++ "**"))]
    else []
  let dbSec : List String :=
    if ts.databases ≠ [] then
      ["### Databases & Storage\n"
        ++ joinStr "\n" (ts.databases.map (fun db => "- **" ++ db ++ "**"))]
    else []
  let depSec : List String :=
    if ts.deployment ≠ [] then
      ["### Deployment & DevOps\n"
        ++ joinStr "\n" (ts.deployment.map (fun dep => "- **" ++ dep ++ "**"))]
    else []
  "## 🛠 Technology Stack\n\n" ++ joinStr "\n\n" (langSec ++ fwSec ++ toolSec ++ dbSec ++ depSec)

/-! ### ReadmeGenerator: installation and usage templates -/

/-- Identity passthrough of the clone-URL placeholder (`getCloneUrl`). -/
def getCloneUrl (placeholder : String) : String := placeholder

/-- Identity passthrough of the repo-name placeholder (`getRepoName`). -/
def getRepoName (placeholder : String) : String := placeholder

/-- Lockfile-driven package-manager selection. -/
def packageManager (names : List String) : String :=
  if names.contains "yarn.lock" then "yarn"
  else if names.contains "pnpm-lock.yaml" then "pnpm"
  else "npm"

def nodeInstall (pm : String) : String :=
  "### Prerequisites\n- Node.js (version 16 or higher)\n- " ++ pm
    ++ " package manager\n\n### Installation Steps\n\n1. **Clone the repository**\n   ```bash\n   git clone "
    ++ getCloneUrl "REPO_URL" ++ "\n   cd " ++ getRepoName "REPO_NAME"
    ++ "\n   ```\n\n2. **Install dependencies**\n   ```bash\n   " ++ pm
    ++ " install\n   ```\n\n3. **Set up environment variables**\n   ```bash\n   cp .env.example .env\n   # Edit .env with your configuration\n   ```\n\n4. **Start the development server**\n   ```bash\n   "
    ++ pm ++ " run dev\n   ```"

def pythonInstall : String :=
  "### Prerequisites\n- Python 3.8 or higher\n- pip package manager\n\n### Installation Steps\n\n1. **Clone the repository**\n   ```bash\n   git clone "
    ++ getCloneUrl "REPO_URL" ++ "\n   cd " ++ getRepoName "REPO_NAME"
    ++ "\n   ```\n\n2. **Create a virtual environment**\n   ```bash\n   python -m venv venv\n   source venv/bin/activate  # On Windows: venv\\Scripts\\activate\n   ```\n\n3. **Install dependencies**\n   ```bash\n   pip install -r requirements.txt\n   ```\n\n4. **Run the application**\n   ```bash\n   python main.py\n   ```"

def javaInstall : String :=
  "### Prerequisites\n- Java 11 or higher\n- Maven\n\n### Installation Steps\n\n1. **Clone the repository**\n   ```bash\n   git clone "
    ++ getCloneUrl "REPO_URL" ++ "\n   cd " ++ getRepoName "REPO_NAME"
    ++ "\n   ```\n\n2. **Build the project**\n   ```bash\n   mvn clean install\n   ```\n\n3. **Run the application**\n   ```bash\n   mvn spring-boot:run\n   ```"

def genericInstall : String :=
  "### Prerequisites\n- Check the technology stack above for specific requirements\n\n### Installation Steps\n\n1. **Clone the repository**\n   ```bash\n   git clone "
    ++ getCloneUrl "REPO_URL" ++ "\n   cd " ++ getRepoName "REPO_NAME"
    ++ "\n   ```\n\n2. **Follow the setup instructions for your specific technology stack**\n   \n3. **Configure environment variables if needed**\n   \n4. **Run the application according to your platform requirements**"

/-- Embeds `generateInstallation`: an if / else-if chain selecting one of the
four templates, in priority order. -/
def generateInstallation (ts : TechnologyStack) (files : List RepoFile) : String :=
  let names := fileNames files
  let installSteps :=
    if names.contains "package.json" then nodeInstall (packageManager names)
    else if names.contains "requirements.txt" || names.contains "pyproject.toml" then
      pythonInstall
    else if names.contains "pom.xml" then javaInstall
    else genericInstall
  "## 🚀 Installation\n\n" ++ installSteps

def nodeUsage (pm : String) : String :=
  "### Development Mode\n```bash\n" ++ pm
    ++ " run dev\n```\n\n### Production Build\n```bash\n" ++ pm ++ " run build\n" ++ pm
    ++ " start\n```\n\n### Running Tests\n```bash\n" ++ pm
    ++ " test\n```\n\n### Linting\n```bash\n" ++ pm ++ " run lint\n```"

def pythonUsage : String :=
  "### Running the Application\n```bash\npython main.py\n```\n\n### Running Tests\n```bash\npython -m pytest\n```\n\n### Development Mode\n```bash\npython manage.py runserver  # For Django projects\nflask run  # For Flask projects\n```"

def genericUsage : String :=
  "### Basic Usage\n\nAfter installation, you can start using the application by following these steps:\n\n1. Launch the application using the appropriate command for your environment\n2. Access the application through your web browser or terminal\n3. Follow the on-screen instructions or refer to the documentation\n\n### Configuration\n\nYou can customize the application behavior by modifying the configuration files or environment variables."

/-- Embeds `generateUsage`. -/
def generateUsage (r : Repository) (ts : TechnologyStack) (files : List RepoFile) : String :=
  let names := fileNames files
  let usageContent :=
    if names.contains "package.json" then nodeUsage (packageManager names)
    else if names.contains "requirements.txt" then pythonUsage
    else genericUsage
  "## 📖 Usage\n\n" ++ usageContent

/-! ### ReadmeGenerator: project structure, static sections, assembly -/

/-- Comparator of `buildFileTree`'s in-place sort: directories before files,
then `a.name.localeCompare(b.name)` (host collation, passed in as `cmp`). -/
def fileCmp (cmp : String → String → Int) (a b : RepoFile) : Int :=
  if a.type = FileKind.dir ∧ b.type = FileKind.file then -1
  else if a.type = FileKind.file ∧ b.type = FileKind.dir then 1
  else cmp a.name b.name

/-- Sort-before relation induced by the comparator (non-positive value). -/
def fileLe (cmp : String → String → Int) (a b : RepoFile) : Prop :=
  fileCmp cmp a b ≤ 0

instance (cmp : String → String → Int) : DecidableRel (fileLe cmp) :=
  fun a b => inferInstanceAs (Decidable (fileCmp cmp a b ≤ 0))

/-- The in-place `files.sort(...)` of `buildFileTree`, modelled as the stable
sort of the listing by the comparator (JS `Array.prototype.sort` is stable). -/
def sortFiles (cmp : String → String → Int) (files : List RepoFile) : List RepoFile :=
  List.insertionSort (fileLe cmp) files

/-- Embeds `buildFileTree`: sorted flat listing with branch glyphs, the last
entry getting the terminal glyph. -/
def buildFileTree (cmp : String → String → Int) (files : List RepoFile) : String :=
  let sortedFiles := sortFiles cmp files
  let tree := sortedFiles.enum.map (fun e =>
    (if e.1 = sortedFiles.length - 1 then "└── " else "├── ")
      ++ (if e.2.type = FileKind.dir then "📁 " else "📄 ") ++ e.2.name)
  joinStr "\n" tree

/-- Embeds `generateProjectStructure`. -/
def generateProjectStructure (cmp : String → String → Int) (files : List RepoFile) : String :=
  "## 📁 Project Structure\n\n```\n" ++ buildFileTree cmp files ++ "\n```"

/-- Embeds `generateApiDocs`: static template parameterised by the port. -/
def generateApiDocs (ts : TechnologyStack) : String :=
  let port := if ts.frameworks.contains "Django" then "8000" else "3000"
  "## 📡 API Documentation\n\n### Base URL\n```\nhttp://localhost:" ++ port
    ++ "/api\n```\n\n### Authentication\nSome endpoints may require authentication. Include the authorization header:\n```bash\nAuthorization: Bearer <your-token>\n```\n\n### Common Endpoints\n\n#### Health Check\n```http\nGET /api/health\n```\n\n**Response:**\n```json\n\x7b\n  \"status\": \"ok\",\n  \"timestamp\": \"2024-01-01T00:00:00Z\"\n\x7d\n```\n\nFor detailed API documentation, please refer to the API documentation or check if Swagger/OpenAPI documentation is available at `/api/docs`."

/-- Embeds `generateScripts` (static table). -/
def generateScripts : String :=
  "## 📜 Available Scripts\n\n| Script | Description |\n|--------|-------------|\n| `npm run dev` | Start development server |\n| `npm run build` | Build for production |\n| `npm run start` | Start production server |\n| `npm run test` | Run test suite |\n| `npm run lint` | Run linter |\n| `npm run format` | Format code |\n\nRun `npm run` to see all available scripts."

/-- Embeds `generateContributing` (fully static). -/
def generateContributing : String :=
  "## 🤝 Contributing\n\nWe welcome contributions to this project! Here\x27s how you can help:\n\n### Getting Started\n1. Fork the repository\n2. Create a feature branch (`git checkout -b feature/amazing-feature`)\n3. Make your changes\n4. Commit your changes (`git commit -m \x27Add amazing feature\x27`)\n5. Push to the branch (`git push origin feature/amazing-feature`)\n6. Open a Pull Request\n\n### Development Guidelines\n- Follow the existing code style and conventions\n- Write clear, concise commit messages\n- Add tests for new features\n- Update documentation as needed\n- Ensure all tests pass before submitting\n\n### Code of Conduct\nPlease note that this project is released with a [Contributor Code of Conduct](CODE_OF_CONDUCT.md). By participating in this project you agree to abide by its terms."

/-- Embeds `generateLicense`: metadata license with the fixed MIT fallback. -/
def generateLicense (r : Repository) : String :=
  let license := match r.license with
    | some l => if l.name = "" then "MIT License" else l.name
    | none => "MIT License"
  let spdxId := match r.license with
    | some l => if l.spdx_id = "" then "MIT" else l.spdx_id
    | none => "MIT"
  "## 📄 License\n\nThis project is licensed under the " ++ license
    ++ " - see the [LICENSE](LICENSE) file for details.\n\n[![License](https://img.shields.io/badge/License-"
    ++ spdxId ++ "-blue.svg)](LICENSE)"

/-- Embeds `generateContact`: owner is the text before the first `/` of the
fully qualified name (`full_name.split('/')[0]`). -/
def generateContact (r : Repository) : String :=
  let ownerName := String.mk (r.full_name.data.takeWhile (fun c => c ≠ '/'))
  "## 📞 Contact\n\n**Project Maintainer:** [@" ++ ownerName ++ "](https://github.com/"
    ++ ownerName ++ ")\n\n**Project Link:** [" ++ r.html_url ++ "](" ++ r.html_url
    ++ ")\n\n### Support\n- 🐛 **Bug Reports:** [Issues](" ++ r.html_url
    ++ "/issues)\n- 💡 **Feature Requests:** [Issues](" ++ r.html_url
    ++ "/issues)\n- 📧 **Email:** [Contact via GitHub](https://github.com/" ++ ownerName
    ++ ")\n\n### Show your support\nGive a ⭐️ if this project helped you!\n\n---\n\n<div align=\"center\">\n  Made with ❤️ by the development team\n</div>"

/-- The ordered section list of `generateReadme`.  The Project Structure
builder sorts the caller-supplied array in place, so the sections after it
(API-docs and scripts predicates) observe the sorted listing. -/
def readmeSections (cmp : String → String → Int) (fmtDate : String → String)
    (r : Repository) (ts : TechnologyStack) (files : List RepoFile) : List String :=
  [generateHeader r, generateBadges r ts, generateDescription fmtDate r ts files,
   generateTableOfContents ts files, generateFeatures r ts files, generateTechStack ts,
   generateInstallation ts files, generateUsage r ts files,
   generateProjectStructure cmp files]
  ++ (if shouldIncludeApiDocs ts (sortFiles cmp files) then [generateApiDocs ts] else [])
  ++ (if hasPackageJson (sortFiles cmp files) then [generateScripts] else [])
  ++ [generateContributing, generateLicense r, generateContact r]

/-- Embeds `ReadmeGenerator.generateReadme`.  The first component is the
joined document (non-blank sections only); the second component is the state
of the caller's `files` array after the call, reordered in place by the sort
inside `buildFileTree`. -/
def generateReadme (cmp : String → String → Int) (fmtDate : String → String)
    (r : Repository) (ts : TechnologyStack) (files : List RepoFile) :
    String × List RepoFile :=
  (joinStr "\n\n" ((readmeSections cmp fmtDate r ts files).filter (fun s => !(isBlank s))),
   sortFiles cmp files)

/-- Embeds the placeholder resolution of `handleAnalyze`:
`.replace(/REPO_URL/g, clone_url).replace(/REPO_NAME/g, name)`. -/
def resolvePlaceholders (r : Repository) (doc : String) : String :=
  jsReplaceAll (jsReplaceAll doc "REPO_URL" r.clone_url) "REPO_NAME" r.name

/-- The synthesis-then-resolution pipeline of `handleAnalyze`. -/
def finalReadme (cmp : String → String → Int) (fmtDate : String → String)
    (r : Repository) (ts : TechnologyStack) (files : List RepoFile) : String :=
  resolvePlaceholders r (generateReadme cmp fmtDate r ts files).1

/-! ### Definitions written from the claims, and concrete inputs used by the
witnesses and counterexamples -/

def cmp0 : String → String → Int := fun _ _ => 0

def d0 : String → String := fun s => s

def tsEmpty : TechnologyStack := ⟨[], [], [], [], []⟩

def repoBase : Repository :=
  { name := "demo", full_name := "octo/demo", description := none,
    html_url := "https://github.com/octo/demo", clone_url := "https://github.com/octo/demo.git",
    language := none, languages_url := "", topics := [], license := none,
    default_branch := "main", created_at := "2024-01-01", updated_at := "2024-02-02",
    stargazers_count := 1, forks_count := 2, size := 1536 }

def repoTok : Repository :=
  { repoBase with name := "REPO_NAME", clone_url := "REPO_URL" }

def fdir : RepoFile := { name := "a", path := "a", type := FileKind.dir }

def ffile : RepoFile := { name := "b.txt", path := "b.txt", type := FileKind.file }

/-- C2 witness inputs. -/
def parseErr : String → Except String PackageJson := fun _ => Except.error "malformed"

def fetchEmpty : String → String := fun _ => ""

/-- Boolean lexicographic order on character lists (ordinal comparison). -/
def lexLt : List Char → List Char → Bool
  | [], [] => false
  | [], _ :: _ => true
  | _ :: _, [] => false
  | a :: as, b :: bs => if a < b then true else if b < a then false else lexLt as bs

/-- Ordinal case-sensitive comparison, written from the claim wording
(`a.name.localeCompare(b.name)` claimed to be a case-sensitive ordinal
comparison), for comparison against the source comparator. -/
def specOrdinalCompare (x y : String) : Int :=
  if lexLt x.data y.data then -1 else if lexLt y.data x.data then 1 else 0

/-- Case-insensitive-first collation: one consistent comparison function that
default ICU-backed `localeCompare` implementations exhibit on ASCII letters
(`a` sorts before `B`). -/
def localeModelCompare (x y : String) : Int :=
  if lexLt (toLowerS x).data (toLowerS y).data then -1
  else if lexLt (toLowerS y).data (toLowerS x).data then 1
  else specOrdinalCompare x y

def fBtxt : RepoFile := { name := "B.txt", path := "B.txt", type := FileKind.file }

def fatxt : RepoFile := { name := "a.txt", path := "a.txt", type := FileKind.file }

/-- Decoder that always fails, modelling an `atob` exception. -/
def decodeErr : String → Except String String := fun _ => Except.error "bad"

/-- A listing with a single unrecognised file. -/
def filesMd : List RepoFile := [{ name := "README.md", path := "README.md", type := FileKind.file }]

/-! ### General lemmas about the string machinery -/

theorem containsL_iff (pat : List Char) : ∀ s, containsL pat s = true ↔ pat <:+: s := by
  intro s
  induction s with
  | nil =>
    simp [containsL, List.infix_nil, List.isEmpty_iff]
  | cons c s ih =>
    simp [containsL, Bool.or_eq_true, ih, List.infix_cons_iff, List.isPrefixOf_iff_prefix]

theorem infix_right_of_disjoint {pat l₁ l₂ : List Char}
    (hne : pat ≠ []) (hdisj : ∀ c ∈ l₁, c ∉ pat) (h : pat <:+: l₁ ++ l₂) : pat <:+: l₂ := by
  induction l₁ with
  | nil => simpa using h
  | cons a l ih =>
    rw [List.cons_append, List.infix_cons_iff] at h
    rcases h with h | h
    · exfalso
      match pat, hne with
      | p :: pt, _ =>
        rw [List.cons_prefix_cons] at h
        exact hdisj a (List.mem_cons_self a l) (h.1 ▸ List.mem_cons_self p pt)
    · exact ih (fun c hc => hdisj c (List.mem_cons_of_mem _ hc)) h

theorem getSubstitution_eq_self :
    ∀ (rep : List Char), (∀ c ∈ rep, c ≠ '$') →
      ∀ matched before after, getSubstitution matched before after rep = rep := by
  intro rep
  induction rep with
  | nil => intro _ m b a; rfl
  | cons c rest ih =>
    intro hnd m b a
    cases rest with
    | nil => rfl
    | cons d rest2 =>
      simp only [getSubstitution, if_neg (hnd c (List.mem_cons_self c (d :: rest2)))]
      rw [ih (fun x hx => hnd x (List.mem_cons_of_mem _ hx)) m b a]

theorem prefix_reflect {pat₁ rep pat₂ : List Char} (hrep : rep ≠ [])
    (hdisj : ∀ c ∈ rep, c ∉ pat₂) (hnd : ∀ c ∈ rep, c ≠ '$') :
    ∀ fuel pre s t, s.length ≤ fuel → (∀ c ∈ t, c ∈ pat₂) →
      t <+: replaceAllGo pat₁ rep fuel pre s → t <+: s := by
  intro fuel
  induction fuel with
  | zero =>
    intro pre s t _ _ h
    simpa [replaceAllGo] using h
  | succ fuel ih =>
    intro pre s t hlen htc h
    cases s with
    | nil =>
      simpa [replaceAllGo] using h
    | cons c s =>
      by_cases hc : pat₁.isPrefixOf (c :: s) ∧ pat₁ ≠ []
      · rw [replaceAllGo, if_pos hc, getSubstitution_eq_self rep hnd] at h
        cases t with
        | nil => exact List.nil_prefix
        | cons d t' =>
          exfalso
          match rep, hrep with
          | r0 :: rrest, _ =>
            rw [List.cons_append, List.cons_prefix_cons] at h
            exact hdisj r0 (List.mem_cons_self r0 rrest)
              (h.1 ▸ htc d (List.mem_cons_self d t'))
      · rw [replaceAllGo, if_neg hc] at h
        cases t with
        | nil => exact List.nil_prefix
        | cons d t' =>
          rw [List.cons_prefix_cons] at h ⊢
          refine ⟨h.1, ?_⟩
          exact ih (pre ++ [c]) s t' (Nat.le_of_succ_le_succ hlen)
            (fun x hx => htc x (List.mem_cons_of_mem _ hx)) h.2

theorem not_infix_replaceAllGo_self {pat rep : List Char} (hpat : pat ≠ []) (hrep : rep ≠ [])
    (hdisj : ∀ c ∈ rep, c ∉ pat) (hnd : ∀ c ∈ rep, c ≠ '$') :
    ∀ fuel pre s, s.length ≤ fuel → ¬ pat <:+: replaceAllGo pat rep fuel pre s := by
  intro fuel
  induction fuel with
  | zero =>
    intro pre s hlen
    have hs : s = [] := List.length_eq_zero.mp (Nat.le_zero.mp hlen)
    subst hs
    simp [replaceAllGo, List.infix_nil, hpat]
  | succ fuel ih =>
    intro pre s hlen
    cases s with
    | nil => simp [replaceAllGo, List.infix_nil, hpat]
    | cons c s =>
      by_cases hc : pat.isPrefixOf (c :: s) ∧ pat ≠ []
      · rw [replaceAllGo, if_pos hc, getSubstitution_eq_self rep hnd]
        intro h
        have h2 := infix_right_of_disjoint hpat hdisj h
        have hlen2 : ((c :: s).drop pat.length).length ≤ fuel := by
          have hp : 0 < pat.length := List.length_pos.mpr hpat
          have hlen' : s.length + 1 ≤ fuel + 1 := by simpa using hlen
          simp only [List.length_drop, List.length_cons]
          omega
        exact ih _ _ hlen2 h2
      · rw [replaceAllGo, if_neg hc]
        intro h
        rw [List.infix_cons_iff] at h
        rcases h with h | h
        · match pat, hpat with
          | p :: pt, _ =>
            rw [List.cons_prefix_cons] at h
            have hpt : pt <+: s :=
              prefix_reflect hrep hdisj hnd fuel _ _ pt (Nat.le_of_succ_le_succ hlen)
                (fun x hx => List.mem_cons_of_mem _ hx) h.2
            have : (p :: pt).isPrefixOf (c :: s) = true := by
              rw [List.isPrefixOf_iff_prefix, List.cons_prefix_cons]
              exact ⟨h.1, hpt⟩
            exact hc ⟨this, by simp⟩
        · exact ih _ s (Nat.le_of_succ_le_succ hlen) h

theorem not_infix_replaceAllGo_other {pat₁ rep pat₂ : List Char} (hpat : pat₂ ≠ [])
    (hrep : rep ≠ []) (hdisj : ∀ c ∈ rep, c ∉ pat₂) (hnd : ∀ c ∈ rep, c ≠ '$') :
    ∀ fuel pre s, s.length ≤ fuel → ¬ pat₂ <:+: s →
      ¬ pat₂ <:+: replaceAllGo pat₁ rep fuel pre s := by
  intro fuel
  induction fuel with
  | zero =>
    intro pre s _ hs
    simpa [replaceAllGo] using hs
  | succ fuel ih =>
    intro pre s hlen hs
    cases s with
    | nil => simpa [replaceAllGo] using hs
    | cons c s =>
      by_cases hc : pat₁.isPrefixOf (c :: s) ∧ pat₁ ≠ []
      · rw [replaceAllGo, if_pos hc, getSubstitution_eq_self rep hnd]
        intro h
        have h2 := infix_right_of_disjoint hpat hdisj h
        have hlen2 : ((c :: s).drop pat₁.length).length ≤ fuel := by
          have hp : 0 < pat₁.length := List.length_pos.mpr hc.2
          have hlen' : s.length + 1 ≤ fuel + 1 := by simpa using hlen
          simp only [List.length_drop, List.length_cons]
          omega
        have hdropnot : ¬ pat₂ <:+: (c :: s).drop pat₁.length := fun hcon =>
          hs (hcon.trans (List.drop_suffix _ _).isInfix)
        exact ih _ _ hlen2 hdropnot h2
      · rw [replaceAllGo, if_neg hc]
        intro h
        rw [List.infix_cons_iff] at h
        rcases h with h | h
        · match pat₂, hpat with
          | p :: pt, hp2 =>
            rw [List.cons_prefix_cons] at h
            have hpt : pt <+: s :=
              prefix_reflect hrep hdisj hnd fuel _ _ pt (Nat.le_of_succ_le_succ hlen)
                (fun x hx => List.mem_cons_of_mem _ hx) h.2
            exact hs (List.IsPrefix.isInfix (by rw [List.cons_prefix_cons]; exact ⟨h.1, hpt⟩))
        · exact ih _ s (Nat.le_of_succ_le_succ hlen)
            (fun hcon => hs (hcon.trans (List.suffix_cons c s).isInfix)) h

theorem replaceAllGo_self (pat : List Char) (hnd : ∀ c ∈ pat, c ≠ '$') :
    ∀ fuel pre s, replaceAllGo pat pat fuel pre s = s := by
  intro fuel
  induction fuel with
  | zero => intro pre s; rfl
  | succ fuel ih =>
    intro pre s
    cases s with
    | nil => rfl
    | cons c s =>
      by_cases hc : pat.isPrefixOf (c :: s) ∧ pat ≠ []
      · rw [replaceAllGo, if_pos hc, getSubstitution_eq_self pat hnd, ih]
        obtain ⟨t, ht⟩ := List.isPrefixOf_iff_prefix.mp hc.1
        rw [← ht, List.drop_left]
      · rw [replaceAllGo, if_neg hc, ih]

theorem mem_dedupAcc {x : String} : ∀ {l seen}, x ∈ dedupAcc seen l ↔ x ∈ l ∧ x ∉ seen := by
  intro l
  induction l with
  | nil => intro seen; simp [dedupAcc]
  | cons a l ih =>
    intro seen
    by_cases ha : seen.contains a
    · have ha' : a ∈ seen := List.mem_of_elem_eq_true ha
      rw [dedupAcc, if_pos ha, ih]
      constructor
      · rintro ⟨h1, h2⟩
        exact ⟨List.mem_cons_of_mem _ h1, h2⟩
      · rintro ⟨h1, h2⟩
        rcases List.mem_cons.mp h1 with h | h
        · exact absurd (h ▸ ha') h2
        · exact ⟨h, h2⟩
    · have ha' : a ∉ seen := fun hmem => ha (List.elem_eq_true_of_mem hmem)
      rw [dedupAcc, if_neg ha]
      simp only [List.mem_cons, ih]
      constructor
      · rintro (h | ⟨h1, h2⟩)
        · exact ⟨Or.inl h, h ▸ ha'⟩
        · exact ⟨Or.inr h1, fun hx => h2 (Or.inr hx)⟩
      · rintro ⟨h1 | h1, h2⟩
        · exact Or.inl h1
        · by_cases hxa : x = a
          · exact Or.inl hxa
          · exact Or.inr ⟨h1, by simp [hxa, h2]⟩

theorem nodup_dedupAcc : ∀ (l : List String) (seen), (dedupAcc seen l).Nodup := by
  intro l
  induction l with
  | nil => intro seen; simp [dedupAcc]
  | cons a l ih =>
    intro seen
    by_cases ha : seen.contains a
    · rw [dedupAcc, if_pos ha]; exact ih seen
    · rw [dedupAcc, if_neg ha]
      rw [List.nodup_cons]
      refine ⟨fun hmem => ?_, ih _⟩
      have := (mem_dedupAcc.mp hmem).2
      exact this (List.mem_cons_self a seen)

theorem dedupAcc_sublist : ∀ (l : List String) (seen), (dedupAcc seen l).Sublist l := by
  intro l
  induction l with
  | nil => intro seen; simp [dedupAcc]
  | cons a l ih =>
    intro seen
    by_cases ha : seen.contains a
    · rw [dedupAcc, if_pos ha]; exact (ih seen).cons a
    · rw [dedupAcc, if_neg ha]; exact (ih _).cons₂ a

theorem dedupAcc_eq_self : ∀ (l : List String) (seen), l.Nodup → (∀ x ∈ l, x ∉ seen) →
    dedupAcc seen l = l := by
  intro l
  induction l with
  | nil => intro seen _ _; rfl
  | cons a l ih =>
    intro seen hnd hs
    have ha : ¬ seen.contains a := fun hc =>
      hs a (List.mem_cons_self a l) (List.mem_of_elem_eq_true hc)
    rw [dedupAcc, if_neg ha]
    rw [List.nodup_cons] at hnd
    rw [ih _ hnd.2 ?_]
    intro x hx
    simp only [List.mem_cons]
    rintro (h | h)
    · exact hnd.1 (h ▸ hx)
    · exact hs x (List.mem_cons_of_mem _ hx) h

theorem dedupFS_nodup (l : List String) : (dedupFS l).Nodup := nodup_dedupAcc l []

theorem dedupFS_sublist (l : List String) : (dedupFS l).Sublist l := dedupAcc_sublist l []

theorem dedupFS_idem (l : List String) : dedupFS (dedupFS l) = dedupFS l :=
  dedupAcc_eq_self _ _ (dedupFS_nodup l) (by simp)

theorem joinSep_cons (sep : List Char) (s : String) (l : List String) :
    ∃ t, joinSep sep (s :: l) = s.data ++ t := by
  cases l with
  | nil => exact ⟨[], by simp [joinSep]⟩
  | cons b r => exact ⟨sep ++ joinSep sep (b :: r), by simp [joinSep]⟩

theorem infix_joinSep_of_mem {s : String} {l : List String} (sep : List Char)
    (h : s ∈ l) : s.data <:+: joinSep sep l := by
  induction l with
  | nil => simp at h
  | cons a rest ih =>
    rcases List.mem_cons.mp h with h | h
    · subst h
      obtain ⟨t, ht⟩ := joinSep_cons sep s rest
      rw [ht]
      exact (List.prefix_append _ _).isInfix
    · cases rest with
      | nil => simp at h
      | cons b r =>
        have h2 := ih h
        have : joinSep sep (a :: b :: r) = (a.data ++ sep) ++ joinSep sep (b :: r) := by
          simp [joinSep, List.append_assoc]
        rw [this]
        exact h2.trans (List.suffix_append _ _).isInfix

theorem fileLe_total (cmp : String → String → Int)
    (htot : ∀ x y, cmp x y ≤ 0 ∨ cmp y x ≤ 0) :
    ∀ a b, fileLe cmp a b ∨ fileLe cmp b a := by
  intro a b
  unfold fileLe fileCmp
  cases ha : a.type <;> cases hb : b.type <;> simp <;> exact htot a.name b.name

theorem fileLe_trans (cmp : String → String → Int)
    (htrans : ∀ x y z, cmp x y ≤ 0 → cmp y z ≤ 0 → cmp x z ≤ 0) :
    ∀ a b c, fileLe cmp a b → fileLe cmp b c → fileLe cmp a c := by
  intro a b c
  unfold fileLe fileCmp
  cases ha : a.type <;> cases hb : b.type <;> cases hc : c.type <;> simp <;>
    exact htrans a.name b.name c.name

theorem sorted_sortFiles (cmp : String → String → Int)
    (htot : ∀ x y, cmp x y ≤ 0 ∨ cmp y x ≤ 0)
    (htrans : ∀ x y z, cmp x y ≤ 0 → cmp y z ≤ 0 → cmp x z ≤ 0)
    (files : List RepoFile) :
    List.Pairwise (fileLe cmp) (sortFiles cmp files) := by
  letI : IsTotal RepoFile (fileLe cmp) := ⟨fileLe_total cmp htot⟩
  letI : IsTrans RepoFile (fileLe cmp) := ⟨fun a b c => fileLe_trans cmp htrans a b c⟩
  exact List.sorted_insertionSort (fileLe cmp) files

/-! ### Concrete inputs shared by witnesses and counterexamples -/










/-- C2: detection is total under manifest fetch and parse failure.  On any
fetch failure (non-ok response, missing content field, or decode exception)
`getFileContent` returns the empty string; the detector treats empty manifest
content as no additional signal (the parse oracle is then irrelevant); a
JSON parse failure of the package manifest is caught locally and contributes
no signal; and in all cases `detectTechnologies` returns a `TechnologyStack`
(its `languages` field always echoing the input) without raising. -/
theorem c2_detection_resilient :
    (∀ (decode : String → Except String String) (e : String),
      getFileContent decode (Except.error e) = "")
    ∧ (∀ (decode : String → Except String String) (r : ContentResponse),
        r.content = none → getFileContent decode (Except.ok r) = "")
    ∧ (∀ (decode : String → Except String String) (r : ContentResponse) (c e : String),
        r.content = some c → decode (stripNewlines c) = Except.error e →
        getFileContent decode (Except.ok r) = "")
    ∧ (∀ (parse parse' : String → Except String PackageJson) (files : List RepoFile)
        (langs : List (String × Nat)),
        detectTechnologies parse (fun _ => "") files langs =
          detectTechnologies parse' (fun _ => "") files langs)
    ∧ (∀ (parse : String → Except String PackageJson) (fetch : String → String)
        (files : List RepoFile) (langs : List (String × Nat)) (e : String),
        parse (fetch "package.json") = Except.error e →
        detectTechnologies parse fetch files langs =
          detectTechnologies parseErr fetch files langs)
    ∧ (∀ (parse : String → Except String PackageJson) (fetch : String → String)
        (files : List RepoFile) (langs : List (String × Nat)),
        (detectTechnologies parse fetch files langs).languages = langs) := by
  refine ⟨fun _ _ => rfl, ?_, ?_, ?_, ?_, fun _ _ _ _ => rfl⟩
  · intro decode r h
    simp [getFileContent, h]
  · intro decode r c e h1 h2
    simp [getFileContent, h1, h2]
  · intro parse parse' files langs
    simp [detectTechnologies, pkgInfoOf]
  · intro parse fetch files langs e h
    simp [detectTechnologies, pkgInfoOf, parseErr, h]

/-- C3: for every listing with no recognised manifest or marker file (no
package.json, Python/Java/Go/Rust/.NET manifests, Docker or CI files,
recognised config files, .sql files, or schema.prisma — the disjunction
`detectionMarkers`), `detectTechnologies` returns a profile whose
frameworks, tools, databases and deployment lists are all empty and whose
languages map is the `languageBytes` input unmodified. -/
theorem c3_no_markers_empty_profile (parse : String → Except String PackageJson) (fetch : String → String)
    (files : List RepoFile) (langs : List (String × Nat))
    (h : detectionMarkers files = false) :
    detectTechnologies parse fetch files langs =
      { languages := langs, frameworks := [], tools := [], databases := [], deployment := [] } := by
  simp only [detectionMarkers, Bool.or_eq_false_iff] at h
  obtain ⟨h, hq25⟩ := h
  obtain ⟨h, hq24⟩ := h
  obtain ⟨h, hq23⟩ := h
  obtain ⟨h, hq22⟩ := h
  obtain ⟨h, hq21⟩ := h
  obtain ⟨h, hq20⟩ := h
  obtain ⟨h, hq19⟩ := h
  obtain ⟨h, hq18⟩ := h
  obtain ⟨h, hq17⟩ := h
  obtain ⟨h, hq16⟩ := h
  obtain ⟨h, hq15⟩ := h
  obtain ⟨h, hq14⟩ := h
  obtain ⟨h, hq13⟩ := h
  obtain ⟨h, hq12⟩ := h
  obtain ⟨h, hq11⟩ := h
  obtain ⟨h, hq10⟩ := h
  obtain ⟨h, hq9⟩ := h
  obtain ⟨h, hq8⟩ := h
  obtain ⟨h, hq7⟩ := h
  obtain ⟨h, hq6⟩ := h
  obtain ⟨h, hq5⟩ := h
  obtain ⟨h, hq4⟩ := h
  obtain ⟨h, hq3⟩ := h
  obtain ⟨h, hq2⟩ := h
  have hq1 := h
  simp only [detectTechnologies, pkgInfoOf, frameworksRaw, toolsRaw, databasesRaw,
    deploymentRaw, hq1, hq2, hq3, hq4, hq5, hq6, hq7, hq8, hq9, hq10, hq11, hq12, hq13, hq14, hq15, hq16, hq17, hq18, hq19, hq20, hq21, hq22, hq23, hq24, hq25]
  rfl

/-- C8: each of the four category lists of every profile returned by
`detectTechnologies` contains no duplicate labels, the deduplication is
idempotent on the returned lists, and each returned list is a sublist of
(hence preserves the first-seen order of) the corresponding raw push-order
list. -/
theorem c8_dedup_invariants (parse : String → Except String PackageJson) (fetch : String → String)
    (files : List RepoFile) (langs : List (String × Nat)) :
    (detectTechnologies parse fetch files langs).frameworks.Nodup
    ∧ (detectTechnologies parse fetch files langs).tools.Nodup
    ∧ (detectTechnologies parse fetch files langs).databases.Nodup
    ∧ (detectTechnologies parse fetch files langs).deployment.Nodup
    ∧ dedupFS (detectTechnologies parse fetch files langs).frameworks =
        (detectTechnologies parse fetch files langs).frameworks
    ∧ dedupFS (detectTechnologies parse fetch files langs).tools =
        (detectTechnologies parse fetch files langs).tools
    ∧ dedupFS (detectTechnologies parse fetch files langs).databases =
        (detectTechnologies parse fetch files langs).databases
    ∧ dedupFS (detectTechnologies parse fetch files langs).deployment =
        (detectTechnologies parse fetch files langs).deployment
    ∧ ((detectTechnologies parse fetch files langs).frameworks).Sublist
        (frameworksRaw (pkgInfoOf parse fetch (fileNames files))
          ((fileNames files).contains "requirements.txt" ||
            (fileNames files).contains "pyproject.toml" ||
            (fileNames files).contains "pipfile")
          (if (fileNames files).contains "requirements.txt" then fetch "requirements.txt" else "")
          (fileNames files) files)
    ∧ ((detectTechnologies parse fetch files langs).tools).Sublist
        (toolsRaw (pkgInfoOf parse fetch (fileNames files))
          ((fileNames files).contains "requirements.txt" ||
            (fileNames files).contains "pyproject.toml" ||
            (fileNames files).contains "pipfile")
          (if (fileNames files).contains "requirements.txt" then fetch "requirements.txt" else "")
          (fileNames files))
    ∧ ((detectTechnologies parse fetch files langs).databases).Sublist
        (databasesRaw (pkgInfoOf parse fetch (fileNames files)) (fileNames files) files)
    ∧ ((detectTechnologies parse fetch files langs).deployment).Sublist
        (deploymentRaw (fileNames files) files) :=
  ⟨dedupFS_nodup _, dedupFS_nodup _, dedupFS_nodup _, dedupFS_nodup _,
   dedupFS_idem _, dedupFS_idem _, dedupFS_idem _, dedupFS_idem _,
   dedupFS_sublist _, dedupFS_sublist _, dedupFS_sublist _, dedupFS_sublist _⟩

set_option maxRecDepth 8000 in
/-- C4: the Installation section renders exactly one of the four mutually
exclusive templates — the marker line `### Installation Steps` (present once
in each template) occurs exactly once in the output for every listing — and
with no package manifest and no Python manifest the output is exactly the
header followed by the Java template (if pom.xml is present) or the generic
fallback, never two templates concatenated. -/
theorem c4_installation_exclusive (ts : TechnologyStack) (files : List RepoFile) :
    countOccS "### Installation Steps" (generateInstallation ts files) = 1 ∧
    ((fileNames files).contains "package.json" = false →
      ((fileNames files).contains "requirements.txt" ||
        (fileNames files).contains "pyproject.toml") = false →
      generateInstallation ts files =
        "## 🚀 Installation\n\n" ++
          (if (fileNames files).contains "pom.xml" then javaInstall else genericInstall)) := by
  constructor
  · simp only [generateInstallation, packageManager]
    by_cases h1 : (fileNames files).contains "package.json" = true
    · simp only [h1, if_true]
      by_cases h2 : (fileNames files).contains "yarn.lock" = true
      · simp only [h2, if_true]
        decide
      · simp only [Bool.not_eq_true] at h2
        simp only [h2, Bool.false_eq_true, if_false]
        by_cases h3 : (fileNames files).contains "pnpm-lock.yaml" = true
        · simp only [h3, if_true]
          decide
        · simp only [Bool.not_eq_true] at h3
          simp only [h3, Bool.false_eq_true, if_false]
          decide
    · simp only [Bool.not_eq_true] at h1
      simp only [h1, Bool.false_eq_true, if_false]
      by_cases h2 : ((fileNames files).contains "requirements.txt" ||
          (fileNames files).contains "pyproject.toml") = true
      · simp only [h2, if_true]
        decide
      · simp only [Bool.not_eq_true] at h2
        simp only [h2, Bool.false_eq_true, if_false]
        by_cases h3 : (fileNames files).contains "pom.xml" = true
        · simp only [h3, if_true]
          decide
        · simp only [Bool.not_eq_true] at h3
          simp only [h3, Bool.false_eq_true, if_false]
          decide
  · intro h1 h2
    simp only [generateInstallation, h1, h2, Bool.false_eq_true, if_false]

theorem mem_of_mem_ite_nil {c : Prop} [Decidable c] {l : List String} {x : String}
    (h : x ∈ if c then l else []) : x ∈ l := by
  split at h
  · exact h
  · simp at h

theorem dbFeature_head (t : String) :
    (("🗄️ Database integration with " ++ t).data).head? = some '🗄' := by
  rw [String.data_append, List.head?_append]
  rfl

theorem dbFeature_not_default (t : String) :
    ("🗄️ Database integration with " ++ t) ∉ defaultFeatures := by
  intro h
  have hh : (("🗄️ Database integration with " ++ t).data).head? = some '🗄' := dbFeature_head t
  simp only [defaultFeatures, List.mem_cons, List.not_mem_nil, or_false] at h
  rcases h with h | h | h | h <;> rw [h] at hh <;> exact absurd hh (by decide)

/-- C5: the Features section renders the fixed generic four-item fallback
list iff zero feature-triggering signals fire: the rendered bullet list is
the derived list when it is non-empty and the four-item `defaultFeatures`
otherwise, it is never empty, and no derived bullet ever coincides with a
fallback bullet (so derived and fallback items are never mixed). -/
theorem c5_features_fallback (r : Repository) (ts : TechnologyStack) (files : List RepoFile) :
    generateFeatures r ts files =
      "## ✨ Features\n\n" ++ joinStr "\n"
        (if derivedFeatures ts files = [] then defaultFeatures else derivedFeatures ts files)
    ∧ (if derivedFeatures ts files = [] then defaultFeatures
        else derivedFeatures ts files) ≠ []
    ∧ defaultFeatures.length = 4
    ∧ (∀ x ∈ derivedFeatures ts files, x ∉ defaultFeatures) := by
  refine ⟨rfl, ?_, rfl, ?_⟩
  · split
    · decide
    · next h => exact h
  · intro x hx
    simp only [derivedFeatures, List.mem_append, List.mem_ite_nil_right,
      List.mem_cons, List.mem_singleton, List.not_mem_nil, or_false] at hx
    have hx2 : x = "⚛️ Built with React for dynamic user interfaces" ∨
        x = "📘 Full TypeScript support for type safety" ∨
        x = "🚀 Server-side rendering with Next.js" ∨
        x = "📱 Optimized for performance and SEO" ∨
        x = "🎨 Responsive design with Tailwind CSS" ∨
        x = "🔧 RESTful API with Express.js" ∨
        x = "🗄️ Database integration with " ++ joinStr ", " ts.databases ∨
        x = "🐳 Docker containerization for easy deployment" ∨
        x = "🔄 Automated CI/CD with GitHub Actions" ∨
        x = "🧪 Comprehensive testing suite" ∨
        x = "⚙️ Environment-based configuration" := by tauto
    rcases hx2 with h | h | h | h | h | h | h | h | h | h | h <;> subst h <;>
      first
        | decide
        | exact dbFeature_not_default _






/-- C6 (amended): for every consistent host comparator `cmp` (the
implementation-defined `localeCompare`), the Project Structure sort places
every directory before every file and orders the rest by the comparator
(`Pairwise (fileLe cmp)`); for the listing [b.txt (file), a (dir)] the
directory `a` is rendered before the file `b.txt`, and only the last
rendered entry carries the terminal glyph `└── `. -/
theorem c6_sorted_tree (cmp : String → String → Int)
    (htot : ∀ x y, cmp x y ≤ 0 ∨ cmp y x ≤ 0)
    (htrans : ∀ x y z, cmp x y ≤ 0 → cmp y z ≤ 0 → cmp x z ≤ 0)
    (files : List RepoFile) :
    List.Pairwise (fileLe cmp) (sortFiles cmp files)
    ∧ sortFiles cmp [ffile, fdir] = [fdir, ffile]
    ∧ buildFileTree cmp [ffile, fdir] = "├── 📁 a\n└── 📄 b.txt" := by
  refine ⟨sorted_sortFiles cmp htot htrans files, rfl, rfl⟩

/-- C6 counterexample: for the two files `B.txt` and `a.txt`, an
ECMA-consistent model of the host `localeCompare` (lower-case-first
collation, as ICU default locales order ASCII letters) renders `a.txt`
before `B.txt`, while the claimed case-sensitive ordinal comparison renders
`B.txt` first — the rendered trees differ, so the ordinal-order claim fails. -/
theorem c6_counterexample :
    sortFiles localeModelCompare [fBtxt, fatxt] = [fatxt, fBtxt]
    ∧ sortFiles specOrdinalCompare [fBtxt, fatxt] = [fBtxt, fatxt]
    ∧ buildFileTree localeModelCompare [fBtxt, fatxt] ≠
        buildFileTree specOrdinalCompare [fBtxt, fatxt] := by
  refine ⟨by decide, by decide, by decide⟩

theorem formatBytes_at_1536K : formatBytes (1536 * 1024) = "1.5 MB" := by
  have hlog : Nat.log 1024 (1536 * 1024) = 2 :=
    Nat.log_eq_of_pow_le_of_lt_pow (by norm_num) (by norm_num)
  simp only [formatBytes, hlog, if_neg (by norm_num : ¬ (1536 * 1024 = 0))]
  norm_num [fmt2, sizesUnits]
  rfl

/-- C9 (amended): synthesis leaves the repository metadata and the
technology profile untouched and neither adds nor removes listing entries,
but the Project Structure builder sorts the caller-supplied file array in
place: after `generateReadme` the listing is exactly the sorted permutation
of its original contents. -/
theorem c9_listing_permuted (cmp : String → String → Int) (fmtDate : String → String)
    (r : Repository) (ts : TechnologyStack) (files : List RepoFile) :
    (generateReadme cmp fmtDate r ts files).2 = sortFiles cmp files
    ∧ ((generateReadme cmp fmtDate r ts files).2).Perm files :=
  ⟨rfl, List.perm_insertionSort _ _⟩

/-- C9 counterexample: synthesis mutates its listing argument — for the
listing [b.txt (file), a (dir)] the array after `generateReadme` is the
sorted [a, b.txt], not the original order. -/
theorem c9_counterexample :
    (generateReadme cmp0 d0 repoBase tsEmpty [ffile, fdir]).2 ≠ [ffile, fdir] := by
  decide

theorem isBlank_false_of_head {s : String} {c : Char} (h : s.data.head? = some c)
    (hc : c.isWhitespace = false) : isBlank s = false := by
  cases hd : s.data with
  | nil => rw [hd] at h; simp at h
  | cons a l =>
    rw [hd] at h
    simp only [List.head?_cons, Option.some.injEq] at h
    rw [isBlank, hd, List.all_cons, h, hc, Bool.false_and]

theorem starsBadge_head (r : Repository) : ((starsBadge r).data).head? = some '[' := by
  simp only [starsBadge, String.data_append, List.head?_append]
  rfl

/-- C10: the Badges section is never blank — `generateBadges` always emits
at least the three repository-counter badges (stars, forks, issues) in that
order at the head of the section — and therefore the Badges section always
survives the empty-section filter and appears in the joined document. -/
theorem c10_badges_nonempty (cmp : String → String → Int) (fmtDate : String → String)
    (r : Repository) (ts : TechnologyStack) (files : List RepoFile) :
    isBlank (generateBadges r ts) = false
    ∧ (∃ t, (generateBadges r ts).data =
        (starsBadge r).data ++ ("\n".data ++ ((forksBadge r).data ++ ("\n".data ++
          ((issuesBadge r).data ++ t)))))
    ∧ (generateBadges r ts).data <:+: ((generateReadme cmp fmtDate r ts files).1).data := by
  have hb : (generateBadges r ts).data = joinSep "\n".data (starsBadge r :: forksBadge r ::
      issuesBadge r :: (langBadgeList r ++ ts.frameworks.filterMap getFrameworkBadge
        ++ licenseBadgeList r)) := rfl
  have hblank : isBlank (generateBadges r ts) = false := by
    obtain ⟨t0, ht0⟩ := joinSep_cons "\n".data (starsBadge r)
      (forksBadge r :: issuesBadge r :: (langBadgeList r
        ++ ts.frameworks.filterMap getFrameworkBadge ++ licenseBadgeList r))
    have hh : ((generateBadges r ts).data).head? = some '[' := by
      rw [hb, ht0, List.head?_append, starsBadge_head r]
      rfl
    exact isBlank_false_of_head hh (by decide)
  refine ⟨hblank, ?_, ?_⟩
  · obtain ⟨t, ht⟩ := joinSep_cons "\n".data (issuesBadge r)
      (langBadgeList r ++ ts.frameworks.filterMap getFrameworkBadge ++ licenseBadgeList r)
    refine ⟨t, ?_⟩
    rw [hb]
    show (starsBadge r).data ++ "\n".data ++ joinSep "\n".data (forksBadge r ::
      issuesBadge r :: _) = _
    rw [show joinSep "\n".data (forksBadge r :: issuesBadge r :: (langBadgeList r
        ++ ts.frameworks.filterMap getFrameworkBadge ++ licenseBadgeList r)) =
      (forksBadge r).data ++ "\n".data ++ joinSep "\n".data (issuesBadge r ::
        (langBadgeList r ++ ts.frameworks.filterMap getFrameworkBadge
          ++ licenseBadgeList r)) from rfl, ht]
    simp [List.append_assoc]
  · have hmem : generateBadges r ts ∈ (readmeSections cmp fmtDate r ts files).filter
        (fun s => !(isBlank s)) := by
      rw [List.mem_filter]
      refine ⟨?_, by rw [hblank]; rfl⟩
      simp [readmeSections]
    exact infix_joinSep_of_mem "\n\n".data hmem

theorem jsReplaceAll_self (s pat : String) (hnd : ∀ c ∈ pat.data, c ≠ '$') :
    jsReplaceAll s pat pat = s := by
  show String.mk (replaceAllL pat.data pat.data s.data) = s
  rw [replaceAllL, replaceAllGo_self pat.data hnd]

theorem not_contains_jsReplaceAll_self {pat rep s : String}
    (hpat : pat.data ≠ []) (hrep : rep.data ≠ [])
    (hdisj : ∀ c ∈ rep.data, c ∉ pat.data) (hnd : ∀ c ∈ rep.data, c ≠ '$') :
    strContains (jsReplaceAll s pat rep) pat = false := by
  rw [← Bool.not_eq_true, strContains, containsL_iff]
  exact not_infix_replaceAllGo_self hpat hrep hdisj hnd s.data.length [] s.data (Nat.le_refl _)

theorem not_contains_jsReplaceAll_other {pat₁ rep pat₂ s : String}
    (hpat : pat₂.data ≠ []) (hrep : rep.data ≠ [])
    (hdisj : ∀ c ∈ rep.data, c ∉ pat₂.data) (hnd : ∀ c ∈ rep.data, c ≠ '$')
    (hs : strContains s pat₂ = false) :
    strContains (jsReplaceAll s pat₁ rep) pat₂ = false := by
  rw [← Bool.not_eq_true, strContains, containsL_iff]
  rw [← Bool.not_eq_true, strContains, containsL_iff] at hs
  exact not_infix_replaceAllGo_other hpat hrep hdisj hnd s.data.length [] s.data
    (Nat.le_refl _) hs

/-- C1 (amended): provided the repository clone URL and name are non-empty,
contain none of the characters of the placeholder tokens, and contain no
dollar sign (so no `GetSubstitution` escape fires in the replacement), the
document produced by `generateReadme` followed by placeholder resolution
contains neither the literal substring `REPO_URL` nor `REPO_NAME`. -/
theorem c1_resolved_token_free (cmp : String → String → Int) (fmtDate : String → String)
    (r : Repository) (ts : TechnologyStack) (files : List RepoFile)
    (hu0 : r.clone_url.data ≠ []) (hn0 : r.name.data ≠ [])
    (hu : ∀ c ∈ r.clone_url.data, c ∉ ("REPO_URL" : String).data ∧ c ∉ ("REPO_NAME" : String).data)
    (hn : ∀ c ∈ r.name.data, c ∉ ("REPO_URL" : String).data ∧ c ∉ ("REPO_NAME" : String).data)
    (hud : ∀ c ∈ r.clone_url.data, c ≠ '$') (hnd : ∀ c ∈ r.name.data, c ≠ '$') :
    strContains (finalReadme cmp fmtDate r ts files) "REPO_URL" = false
    ∧ strContains (finalReadme cmp fmtDate r ts files) "REPO_NAME" = false := by
  constructor
  · exact not_contains_jsReplaceAll_other (by decide) hn0 (fun c hc => (hn c hc).1) hnd
      (not_contains_jsReplaceAll_self (by decide) hu0 (fun c hc => (hu c hc).1) hud)
  · exact not_contains_jsReplaceAll_self (by decide) hn0 (fun c hc => (hn c hc).2) hnd

theorem c1_witness :
    strContains (finalReadme cmp0 d0 repoBase tsEmpty []) "REPO_URL" = false
    ∧ strContains (finalReadme cmp0 d0 repoBase tsEmpty []) "REPO_NAME" = false :=
  c1_resolved_token_free cmp0 d0 repoBase tsEmpty [] (by decide) (by decide) (by decide)
    (by decide) (by decide) (by decide)

set_option maxRecDepth 8000 in
/-- C1 counterexample: for the concrete repository literally named
`REPO_NAME` with clone URL `REPO_URL`, the resolved document still contains
the literal substring `REPO_NAME` — the replacement values re-introduce the
tokens, so the claim fails as universally stated. -/
theorem c1_counterexample :
    strContains (finalReadme cmp0 d0 repoTok tsEmpty []) "REPO_NAME" = true := by
  have hres : finalReadme cmp0 d0 repoTok tsEmpty [] =
      (generateReadme cmp0 d0 repoTok tsEmpty []).1 := by
    show resolvePlaceholders repoTok (generateReadme cmp0 d0 repoTok tsEmpty []).1 = _
    rw [resolvePlaceholders,
      show repoTok.clone_url = "REPO_URL" from rfl,
      show repoTok.name = "REPO_NAME" from rfl,
      jsReplaceAll_self _ _ (by decide), jsReplaceAll_self _ _ (by decide)]
  rw [hres, strContains, containsL_iff]
  have hmem : generateInstallation tsEmpty [] ∈
      (readmeSections cmp0 d0 repoTok tsEmpty []).filter (fun s => !(isBlank s)) := by
    rw [List.mem_filter]
    constructor
    · simp [readmeSections]
    · decide
  have hinf : ("REPO_NAME" : String).data <:+: (generateInstallation tsEmpty []).data :=
    (containsL_iff _ _).mp (by decide)
  exact hinf.trans (infix_joinSep_of_mem "\n\n".data hmem)

theorem c2_witness :
    getFileContent decodeErr (Except.ok ⟨some "abc"⟩) = ""
    ∧ detectTechnologies parseErr fetchEmpty [] [("TypeScript", 800)] =
        detectTechnologies parseErr fetchEmpty [] [("TypeScript", 800)] :=
  ⟨c2_detection_resilient.2.2.1 decodeErr ⟨some "abc"⟩ "abc" "bad" rfl rfl,
   c2_detection_resilient.2.2.2.2.1 parseErr fetchEmpty [] [("TypeScript", 800)] "malformed" rfl⟩

theorem c3_witness :
    detectTechnologies parseErr fetchEmpty filesMd [("TypeScript", 800)] =
      { languages := [("TypeScript", 800)], frameworks := [], tools := [], databases := [],
        deployment := [] } :=
  c3_no_markers_empty_profile parseErr fetchEmpty filesMd [("TypeScript", 800)] (by decide)

theorem c4_witness :
    countOccS "### Installation Steps" (generateInstallation tsEmpty filesMd) = 1
    ∧ generateInstallation tsEmpty filesMd =
        "## 🚀 Installation\n\n" ++
          (if (fileNames filesMd).contains "pom.xml" then javaInstall else genericInstall) :=
  ⟨(c4_installation_exclusive tsEmpty filesMd).1,
   (c4_installation_exclusive tsEmpty filesMd).2 (by decide) (by decide)⟩

theorem c5_witness :
    generateFeatures repoBase tsEmpty [] =
      "## ✨ Features\n\n" ++ joinStr "\n"
        (if derivedFeatures tsEmpty [] = [] then defaultFeatures else derivedFeatures tsEmpty [])
    ∧ (if derivedFeatures tsEmpty [] = [] then defaultFeatures
        else derivedFeatures tsEmpty []) ≠ []
    ∧ defaultFeatures.length = 4
    ∧ (∀ x ∈ derivedFeatures tsEmpty [], x ∉ defaultFeatures) :=
  c5_features_fallback repoBase tsEmpty []

theorem c6_witness :
    List.Pairwise (fileLe cmp0) (sortFiles cmp0 [ffile, fdir])
    ∧ sortFiles cmp0 [ffile, fdir] = [fdir, ffile]
    ∧ buildFileTree cmp0 [ffile, fdir] = "├── 📁 a\n└── 📄 b.txt" :=
  c6_sorted_tree cmp0 (fun _ _ => Or.inl (show (0 : Int) ≤ 0 by decide))
    (fun _ _ _ _ _ => show (0 : Int) ≤ 0 by decide) [ffile, fdir]

/-- C7 counterexample: for `repository.size = 1536` the code formats the
size as `1.5 MB` (`parseFloat` drops the trailing zero of `toFixed(2)`),
not `1.50 MB` as the claim states. -/
theorem c7_counterexample : formatBytes (1536 * 1024) ≠ "1.50 MB" := by
  rw [formatBytes_at_1536K]
  decide

/-- C7 (amended): the human-readable repository size is computed from
size-in-kilobytes times 1024 with 1024-based units chosen by the base-1024
logarithm floor, rounded to two decimals and then re-parsed as a number so
trailing zeros are dropped, with a `0 Bytes` special case; in particular for
`repository.size = 1536` the formatted size string is exactly `1.5 MB`, and
the Description section ends with that formatted size. -/
theorem c7_size_formatting :
    formatBytes 0 = "0 Bytes"
    ∧ formatBytes (1536 * 1024) = "1.5 MB"
    ∧ ∀ (fmtDate : String → String) (r : Repository) (ts : TechnologyStack)
        (files : List RepoFile), ∃ p, generateDescription fmtDate r ts files =
          p ++ ("**Repository Size:** " ++ formatBytes (r.size * 1024)) := by
  refine ⟨rfl, formatBytes_at_1536K, ?_⟩
  intro fmtDate r ts files
  exact ⟨_, String.append_assoc _ "**Repository Size:** " (formatBytes (r.size * 1024))⟩
